import Mathlib

/-!
Verification of the customer-segmentation dashboard (`src/dashboard.py`).

The development shallowly embeds the two components of the script:

* the Loader (`load_data`, lines 19-42): reading the two CSV files,
  normalizing the ambiguous first column of the RFM table, and strictly
  parsing the `InvoiceDate` column of the transaction table, with a single
  `try/except` turning any failure into the uniform result `(None, None)`;
* the Aggregator (the pandas expressions of the dashboard body): segment
  filtering, key metrics, `value_counts`, `groupby` means and sums,
  `nlargest`, the segment summary table, and the data flow of the script
  that feeds each chart either the full table `rfm` or the filtered view
  `rfm_filtered`.

Machine reals of the source (pandas float64 columns) are embedded as `Rat`:
no claim below depends on rounding behaviour of floating point, only on
comparisons, sums and means, which the embedding performs exactly.
`pd.to_datetime` is library code, so the loader is parameterized by an
abstract elementwise date parser `String → Option Timestamp`; unparseable
cells are the `none` results.
-/

namespace Dashboard

/-! ## Loader: CSV-level model of `load_data` (dashboard.py lines 19-42) -/

/-- A raw CSV file: a header row of column names and data rows of cells. -/
structure Csv where
  header : List String
  rows : List (List String)
deriving DecidableEq

/-- Timestamps produced by the date parser; the claims only need them to be
some inhabited type on which parsing can fail, so days-since-epoch. -/
abbrev Timestamp := Nat

/-- Renaming of column labels, as `DataFrame.rename(columns={old: new})`:
every column whose label equals `old` is renamed (pandas renames all columns
carrying the label, including duplicates). -/
def renameCol (old new : String) (h : List String) : List String :=
  h.map (fun c => if c = old then new else c)

/-- Model of `DataFrame.reset_index()` on a default unnamed range index
(dashboard.py line 31): a new first column holding the positional index is
inserted, named `index`, or `level_0` when a column named `index` already
exists; if that name is also taken pandas raises, which the surrounding
`try/except` turns into a load failure. -/
def resetIndex (c : Csv) : Option Csv :=
  let name := if "index" ∈ c.header then "level_0" else "index"
  if name ∈ c.header then none
  else some { header := name :: c.header,
              rows := c.rows.enum.map (fun p => toString p.1 :: p.2) }

/-- Normalization of the RFM table's customer-id column (dashboard.py lines
25-33): if the first column is the sentinel `Unnamed: 0` or `index` it is
renamed to `CustomerID`; if afterwards no `CustomerID` column exists the
row index is materialized by `reset_index()` and an `index` column, when
present, is renamed to `CustomerID`. -/
def normalizeRfm (c : Csv) : Option Csv :=
  let c1 :=
    match c.header.head? with
    | some h0 =>
        if h0 = "Unnamed: 0" ∨ h0 = "index" then
          { c with header := renameCol h0 "CustomerID" c.header }
        else c
    | none => c
  if "CustomerID" ∈ c1.header then some c1
  else
    match resetIndex c1 with
    | none => none
    | some c2 =>
        if "index" ∈ c2.header then
          some { c2 with header := renameCol "index" "CustomerID" c2.header }
        else some c2

/-- Extraction of one column by name, as `df['InvoiceDate']` (dashboard.py
line 37): fails when no column carries the name, or when a row is too short
to have a cell under it (a column shape mismatch). -/
def columnCells (i : Nat) : List (List String) → Option (List String)
  | [] => some []
  | r :: rs =>
      match r.get? i, columnCells i rs with
      | some c, some cs => some (c :: cs)
      | _, _ => none

/-- Lookup of a named column of a CSV. -/
def column (c : Csv) (name : String) : Option (List String) :=
  match c.header.findIdx? (fun h => decide (h = name)) with
  | none => none
  | some i => columnCells i c.rows

/-- Strict elementwise date parsing, as `pd.to_datetime` with the default
`errors` mode (dashboard.py line 37): a single unparseable cell fails the
whole column. -/
def parseAll (pd : String → Option Timestamp) : List String → Option (List Timestamp)
  | [] => some []
  | v :: vs =>
      match pd v, parseAll pd vs with
      | some t, some ts => some (t :: ts)
      | _, _ => none

/-- The loaded transaction table: the original cells plus the parsed
`InvoiceDate` column that line 37 writes back over the text column. -/
structure TxnTable where
  header : List String
  dates : List Timestamp
  rows : List (List String)
deriving DecidableEq

/-- Model of `load_data` (dashboard.py lines 19-42). The files are given as
`Option Csv` (`none` = the file is missing or unreadable); the date parser
is abstract. Mirroring `return None, None` in the `except` arm, the result
is a pair of options: any failure anywhere yields `(none, none)`. -/
def loadData (pd : String → Option Timestamp) (rfmFile txnFile : Option Csv) :
    Option Csv × Option TxnTable :=
  let attempt : Option (Csv × TxnTable) := do
    let rfmRaw ← rfmFile
    let rfm ← normalizeRfm rfmRaw
    let txn ← txnFile
    let cells ← column txn "InvoiceDate"
    let dates ← parseAll pd cells
    pure (rfm, { header := txn.header, dates := dates, rows := txn.rows })
  match attempt with
  | none => (none, none)
  | some (r, t) => (some r, some t)

/-! ### Loader lemmas -/

theorem parseAll_eq_none_of_mem {pd : String → Option Timestamp}
    {l : List String} {v : String} (hv : v ∈ l) (hpd : pd v = none) :
    parseAll pd l = none := by
  induction l with
  | nil => cases hv
  | cons a l ih =>
      cases hv with
      | head => simp [parseAll, hpd]
      | tail _ h => simp [parseAll, ih h]

theorem loadData_eq_of_attempt (pd : String → Option Timestamp)
    (rfmFile txnFile : Option Csv) :
    (loadData pd rfmFile txnFile = (none, none)) ∨
      (∃ r t, loadData pd rfmFile txnFile = (some r, some t)) := by
  unfold loadData
  cases h : (do
    let rfmRaw ← rfmFile
    let rfm ← normalizeRfm rfmRaw
    let txn ← txnFile
    let cells ← column txn "InvoiceDate"
    let dates ← parseAll pd cells
    pure (rfm, { header := txn.header, dates := dates, rows := txn.rows }) :
      Option (Csv × TxnTable)) with
  | none => left; simp
  | some p => right; exact ⟨p.1, p.2, by simp⟩

/-- C1: the load is all-or-nothing. A reusable description of the failure
conditions named by the claim. -/
def LoadFailureCondition (pd : String → Option Timestamp)
    (rfmFile txnFile : Option Csv) : Prop :=
  rfmFile = none ∨ txnFile = none ∨
    (∃ txn, txnFile = some txn ∧ column txn "InvoiceDate" = none) ∨
    (∃ txn cells v, txnFile = some txn ∧ column txn "InvoiceDate" = some cells ∧
      v ∈ cells ∧ pd v = none)

/-- C1: for every pair of input files, load either succeeds with both tables
or fails with neither (`(None, None)`), and each failure condition of the
claim — RFM file missing, transactions file missing, `InvoiceDate` column
mismatch, or a single unparseable date cell — forces the uniform failure
value `(none, none)` with no partial result. -/
theorem load_all_or_nothing (pd : String → Option Timestamp)
    (rfmFile txnFile : Option Csv)
    (h : LoadFailureCondition pd rfmFile txnFile) :
    loadData pd rfmFile txnFile = (none, none) := by
  rcases h with h | h | ⟨txn, htxn, hcol⟩ | ⟨txn, cells, v, htxn, hcol, hv, hpd⟩
  · simp [loadData, h]
  · cases rfmFile with
    | none => simp [loadData]
    | some rfmRaw =>
        cases hn : normalizeRfm rfmRaw with
        | none => simp [loadData, hn]
        | some rfm => simp [loadData, hn, h]
  · cases rfmFile with
    | none => simp [loadData]
    | some rfmRaw =>
        cases hn : normalizeRfm rfmRaw with
        | none => simp [loadData, hn]
        | some rfm => simp [loadData, hn, htxn, hcol]
  · cases rfmFile with
    | none => simp [loadData]
    | some rfmRaw =>
        cases hn : normalizeRfm rfmRaw with
        | none => simp [loadData, hn]
        | some rfm =>
            simp [loadData, hn, htxn, hcol, parseAll_eq_none_of_mem hv hpd]

/-- A concrete date parser for witnesses: parses only the literal cell
`"2010-12-01"`. -/
def pdWitness : String → Option Timestamp :=
  fun s => if s = "2010-12-01" then some 0 else none

/-- A concrete transactions CSV whose single row has an unparseable date. -/
def txnBadDate : Csv :=
  { header := ["InvoiceDate", "Quantity"], rows := [["bad-date", "6"]] }

/-- A concrete well-formed RFM CSV. -/
def rfmGood : Csv :=
  { header := ["Unnamed: 0", "Recency", "Frequency", "Monetary"],
    rows := [["12346", "10", "2", "100"]] }

/-- Witness for C1: a transactions file containing one row with an
unparseable date fails the entire load, returning neither table. -/
theorem load_all_or_nothing_witness :
    loadData pdWitness (some rfmGood) (some txnBadDate) = (none, none) :=
  load_all_or_nothing pdWitness (some rfmGood) (some txnBadDate)
    (Or.inr (Or.inr (Or.inr ⟨txnBadDate, ["bad-date"], "bad-date", rfl,
      by decide, by decide, by decide⟩)))

/-! ### C2: normalization of the sentinel first column -/

/-- The concrete RFM header on which the claim, read literally, fails: the
first column is the sentinel `index`, and a later column happens to be
named `Unnamed: 0`. Lines 26-27 rename only columns labelled like the
first column, so the later `Unnamed: 0` column survives the load. -/
def rfmIdxUnnamed : Csv :=
  { header := ["index", "Unnamed: 0"], rows := [["0", "42"]] }

/-- Counterexample to C2 as stated: an RFM file whose first column is named
`index` (one of the two sentinels of the claim) loads successfully into a
table that still contains a column named `Unnamed: 0`. -/
theorem normalizeRfm_keeps_unnamed_counterexample :
    normalizeRfm rfmIdxUnnamed =
      some { header := ["CustomerID", "Unnamed: 0"], rows := [["0", "42"]] } ∧
    "Unnamed: 0" ∈ (normalizeRfm rfmIdxUnnamed).elim [] Csv.header := by
  constructor
  · rfl
  · decide

/-- C2 (amended): if the first column of the RFM file is one of the two
sentinels `Unnamed: 0` or `index`, and no later column is also named
`Unnamed: 0`, then normalization succeeds on that front and the resulting
header contains `CustomerID` and no `Unnamed: 0` column. -/
theorem normalizeRfm_renames_sentinel (c r : Csv)
    (hsent : c.header.head? = some "Unnamed: 0" ∨ c.header.head? = some "index")
    (htail : "Unnamed: 0" ∉ c.header.tail)
    (hload : normalizeRfm c = some r) :
    "CustomerID" ∈ r.header ∧ "Unnamed: 0" ∉ r.header := by
  obtain ⟨h0, rest, hc⟩ : ∃ h0 rest, c.header = h0 :: rest := by
    cases hh : c.header with
    | nil => rcases hsent with h | h <;> rw [hh] at h <;> cases h
    | cons a l => exact ⟨a, l, rfl⟩
  have hs : h0 = "Unnamed: 0" ∨ h0 = "index" := by
    rcases hsent with h | h <;> rw [hc] at h <;> simp at h <;> simp [h]
  have hrest : "Unnamed: 0" ∉ rest := by
    rw [hc] at htail; simpa using htail
  have hr : r.header = "CustomerID" :: renameCol h0 "CustomerID" rest := by
    have hcond : (h0 = "Unnamed: 0" ∨ h0 = "index") = True := by simp [hs]
    unfold normalizeRfm at hload
    rw [hc] at hload
    simp only [List.head?_cons, hcond, if_true] at hload
    have hren : renameCol h0 "CustomerID" (h0 :: rest) =
        "CustomerID" :: renameCol h0 "CustomerID" rest := by
      simp [renameCol]
    rw [hren] at hload
    simp only [List.mem_cons, true_or, if_true, Option.some.injEq] at hload
    rw [← hload]
  constructor
  · rw [hr]; exact List.mem_cons_self _ _
  · rw [hr]
    intro hmem
    rcases List.mem_cons.mp hmem with h | h
    · exact absurd h.symm (by decide)
    · rcases List.mem_map.mp h with ⟨x, hx, hxe⟩
      by_cases hxh : x = h0
      · simp [hxh] at hxe
      · simp [hxh] at hxe
        exact hrest (hxe ▸ hx)

/-- Witness for C2 (amended): the canonical file with first column
`Unnamed: 0` loads to a header with `CustomerID` and without `Unnamed: 0`. -/
theorem normalizeRfm_renames_sentinel_witness :
    "CustomerID" ∈ (Csv.mk ["CustomerID", "Recency"] []).header ∧
      "Unnamed: 0" ∉ (Csv.mk ["CustomerID", "Recency"] []).header :=
  normalizeRfm_renames_sentinel (Csv.mk ["Unnamed: 0", "Recency"] []) _
    (Or.inl rfl) (by decide) rfl

/-! ## Aggregator: typed model of the loaded RFM table and the pandas
expressions of the dashboard body -/

/-- One row of the loaded RFM table. The segment is optional: a cell of the
`Customer_Segment` column may be empty, which pandas reads as NaN; `none`
embeds that missing value. -/
structure RfmRow where
  customerId : String
  recency : Rat
  frequency : Rat
  monetary : Rat
  segment : Option String
deriving DecidableEq

/-- The loaded RFM table. The four analytic columns are each optional in the
source (every use is guarded by a `... in rfm.columns` check); the `has*`
flags record which columns are present, resolving the capability check once,
while rows carry values for all fields (only flagged fields are ever read). -/
structure RfmTable where
  hasRecency : Bool
  hasFrequency : Bool
  hasMonetary : Bool
  hasSegment : Bool
  rows : List RfmRow
deriving DecidableEq

/-- Filtering by the sidebar selection (dashboard.py lines 62-66):
`rfm[rfm['Customer_Segment'] == selected_segment]` when the selection is not
`All`, the table itself otherwise. pandas `==` on a NaN cell is false, so
rows with a missing segment never match. -/
def filterBySegment (T : RfmTable) (sel : String) : RfmTable :=
  if sel = "All" then T
  else { T with rows := T.rows.filter (fun r => decide (r.segment = some sel)) }

/-- A metric slot of the Key Metrics header row: `unavailable` renders the
`N/A` branch (column absent), `nan` is the float NaN that pandas returns
for the mean of zero rows, `val` a finite value. -/
inductive MetricVal where
  | unavailable
  | nan
  | val (q : Rat)
deriving DecidableEq

/-- Mean of a column, as `Series.mean()`: NaN on an empty series, the exact
mean otherwise (no division-by-zero error is possible). -/
def meanMetric (l : List Rat) : MetricVal :=
  match l with
  | [] => MetricVal.nan
  | _ => MetricVal.val (l.sum / l.length)

/-- The Key Metrics block (dashboard.py lines 72-92). -/
structure KeyMetrics where
  totalCustomers : Nat
  avgRecency : MetricVal
  avgFrequency : MetricVal
  totalRevenue : MetricVal
deriving DecidableEq

/-- Key metrics of a table (dashboard.py lines 76-92): the row count, and
each derived metric guarded by presence of its source column; the revenue is
`Series.sum()`, which is `0` on an empty series. -/
def summaryMetrics (T : RfmTable) : KeyMetrics :=
  { totalCustomers := T.rows.length
    avgRecency :=
      if T.hasRecency then meanMetric (T.rows.map (fun r => r.recency))
      else MetricVal.unavailable
    avgFrequency :=
      if T.hasFrequency then meanMetric (T.rows.map (fun r => r.frequency))
      else MetricVal.unavailable
    totalRevenue :=
      if T.hasMonetary then MetricVal.val ((T.rows.map (fun r => r.monetary)).sum)
      else MetricVal.unavailable }

/-- The distinct segment values that are present (non-missing) in the table,
each once. pandas `value_counts()` and `groupby` both drop NaN keys with
their default `dropna=True`, so only these values ever become group keys. -/
def presentSegments (T : RfmTable) : List String :=
  (T.rows.filterMap (fun r => r.segment)).dedup

/-- Number of rows carrying the given (present) segment value. -/
def segmentCount (T : RfmTable) (s : String) : Nat :=
  T.rows.countP (fun r => decide (r.segment = some s))

/-- Comparator for sorting `(segment, count)` pairs by descending count. -/
def countDesc (a b : String × Nat) : Bool := decide (b.2 ≤ a.2)

/-- Comparator for sorting `(segment, revenue)` pairs by descending value. -/
def revDesc (a b : String × Rat) : Bool := decide (b.2 ≤ a.2)

/-- Comparator for ascending group keys (`groupby` sorts keys by default). -/
def strAsc (a b : String) : Bool := decide (a ≤ b)

/-- Comparator for sorting rows by descending monetary value. -/
def monDesc (a b : RfmRow) : Bool := decide (b.monetary ≤ a.monetary)

/-- Segment distribution (dashboard.py line 103):
`rfm['Customer_Segment'].value_counts()` — one `(segment, count)` pair per
distinct present segment value, sorted by descending count; rows with a
missing segment are dropped by the default `dropna=True`. -/
def segmentCounts (T : RfmTable) : List (String × Nat) :=
  ((presentSegments T).map (fun s => (s, segmentCount T s))).mergeSort countDesc

/-- Rounding to two decimal places, as `DataFrame.round(2)`. -/
def round2 (q : Rat) : Rat := (round (q * 100) : Int) / 100

/-- Exact mean of a list of rationals (groups it is applied to are always
nonempty, being fibers of present keys). -/
def meanList (l : List Rat) : Rat := l.sum / l.length

/-- The rows of one segment group. -/
def segGroup (T : RfmTable) (s : String) : List RfmRow :=
  T.rows.filter (fun r => decide (r.segment = some s))

/-- Per-segment RFM means (dashboard.py line 131):
`rfm.groupby('Customer_Segment')[['Recency','Frequency','Monetary']].mean().round(2)`,
keys sorted ascending as `groupby` does by default, NaN keys dropped. -/
def segmentRfmMeans (T : RfmTable) : List (String × Rat × Rat × Rat) :=
  ((presentSegments T).mergeSort strAsc).map (fun s =>
    (s, round2 (meanList ((segGroup T s).map (fun r => r.recency))),
      round2 (meanList ((segGroup T s).map (fun r => r.frequency))),
      round2 (meanList ((segGroup T s).map (fun r => r.monetary)))))

/-- Total monetary value of one segment group. -/
def segRevenueOf (T : RfmTable) (s : String) : Rat :=
  ((segGroup T s).map (fun r => r.monetary)).sum

/-- Per-segment revenue (dashboard.py line 180):
`rfm.groupby('Customer_Segment')['Monetary'].sum().sort_values(ascending=False)` —
group keys ascending, then the presentation sort by descending revenue. -/
def segmentRevenue (T : RfmTable) : List (String × Rat) :=
  (((presentSegments T).mergeSort strAsc).map (fun s =>
    (s, segRevenueOf T s))).mergeSort revDesc

/-- Top customers (dashboard.py line 192): `rfm.nlargest(n, 'Monetary')`
with its default `keep='first'` — the first `n` rows of the table stably
sorted by descending monetary value. -/
def topNByMonetary (T : RfmTable) (n : Nat) : List RfmRow :=
  (T.rows.mergeSort monDesc).take n

/-- One row of the Segment Summary Table (dashboard.py lines 236-243). -/
structure SegSummaryRow where
  segment : String
  avgRecency : Rat
  avgFrequency : Rat
  avgMonetary : Rat
  totalRevenue : Rat
  customerCount : Nat
deriving DecidableEq

/-- Comparator for sorting summary rows by descending total revenue. -/
def summaryDesc (a b : SegSummaryRow) : Bool :=
  decide (b.totalRevenue ≤ a.totalRevenue)

/-- The Segment Summary Table (dashboard.py lines 236-243): per-segment
mean recency/frequency/monetary, total revenue and row count, produced by
`groupby ... .agg({...}).round(2)` (keys ascending, NaN keys dropped) and
then `sort_values('Total Revenue', ascending=False)`. -/
def segmentSummary (T : RfmTable) : List SegSummaryRow :=
  (((presentSegments T).mergeSort strAsc).map (fun s =>
    { segment := s
      avgRecency := round2 (meanList ((segGroup T s).map (fun r => r.recency)))
      avgFrequency := round2 (meanList ((segGroup T s).map (fun r => r.frequency)))
      avgMonetary := round2 (meanList ((segGroup T s).map (fun r => r.monetary)))
      totalRevenue := round2 (segRevenueOf T s)
      customerCount := (segGroup T s).length })).mergeSort summaryDesc

/-- Everything the dashboard body derives from the loaded table on one
render. Chart-bearing fields are `Option`s because each block is guarded by
a column-presence check in the source; `none` embeds the skipped block. -/
structure DashOutputs where
  finalRfm : RfmTable
  selectedSegment : String
  rfmFiltered : RfmTable
  metrics : KeyMetrics
  segCounts : Option (List (String × Nat))
  segRfmMeans : Option (List (String × Rat × Rat × Rat))
  scatterSource : Option RfmTable
  segRevenue : Option (List (String × Rat))
  topCustomers : Option (List RfmRow)
  histSource : Option RfmTable
  segSummaryRows : Option (List SegSummaryRow)
  rawSample : List RfmRow
deriving DecidableEq

/-- One full pass of the dashboard body (dashboard.py lines 54-251) given
the loaded table and the sidebar selection. Data flow as in the source:
the key metrics (lines 76-92), the 3D scatter (lines 152-166), the
histograms (lines 206-229) and the raw sample (line 251) read the filtered
view `rfm_filtered`; the segment distribution (line 103), the RFM heatmap
(line 131), the segment revenue (line 180), the top customers (line 192)
and the segment summary (line 236) read the full table `rfm`. `finalRfm` is
the loaded table after the pass: no aggregation mutates it (every pandas
call used — boolean-mask filtering, `value_counts`, `groupby`/`agg`,
`nlargest`, `head` — returns a new object; the only `inplace=True` call in
the script is the rename inside `load_data`, before the table is shared). -/
def dashboardRun (T : RfmTable) (sel : String) : DashOutputs :=
  let selected := if T.hasSegment then sel else "All"
  let rfmFiltered := if T.hasSegment then filterBySegment T sel else T
  { finalRfm := T
    selectedSegment := selected
    rfmFiltered := rfmFiltered
    metrics := summaryMetrics rfmFiltered
    segCounts := if T.hasSegment then some (segmentCounts T) else none
    segRfmMeans :=
      if T.hasRecency && T.hasFrequency && T.hasMonetary && T.hasSegment then
        some (segmentRfmMeans T)
      else none
    scatterSource :=
      if T.hasRecency && T.hasFrequency && T.hasMonetary then some rfmFiltered
      else none
    segRevenue :=
      if T.hasMonetary && T.hasSegment then some (segmentRevenue T) else none
    topCustomers := if T.hasMonetary then some (topNByMonetary T 10) else none
    histSource :=
      if rfmFiltered.hasRecency && rfmFiltered.hasFrequency &&
          rfmFiltered.hasMonetary then some rfmFiltered
      else none
    segSummaryRows :=
      if T.hasSegment && (T.hasRecency && T.hasFrequency && T.hasMonetary) then
        some (segmentSummary T)
      else none
    rawSample := rfmFiltered.rows.take 20 }

/-! ### Shared helper lemmas -/

theorem meanMetric_ne_unavailable (l : List Rat) :
    meanMetric l ≠ MetricVal.unavailable := by
  cases l <;> simp [meanMetric]

theorem revDesc_trans (a b c : String × Rat) :
    revDesc a b → revDesc b c → revDesc a c := by
  simp only [revDesc, decide_eq_true_eq]
  exact fun hab hbc => le_trans hbc hab

theorem revDesc_total (a b : String × Rat) : revDesc a b || revDesc b a := by
  simp only [revDesc, Bool.or_eq_true, decide_eq_true_eq]
  exact le_total b.2 a.2

theorem monDesc_trans (a b c : RfmRow) :
    monDesc a b → monDesc b c → monDesc a c := by
  simp only [monDesc, decide_eq_true_eq]
  exact fun hab hbc => le_trans hbc hab

theorem monDesc_total (a b : RfmRow) : monDesc a b || monDesc b a := by
  simp only [monDesc, Bool.or_eq_true, decide_eq_true_eq]
  exact le_total b.monetary a.monetary

/-! ### C6: filtering by segment -/

/-- C6: `filter_by_segment` with selection `All` is the identity (so the
filtered count equals the table count), and with any other selection it
returns exactly the rows whose segment equals the selection, in original
order — a sublist of the input rows. -/
theorem filterBySegment_spec (T : RfmTable) (sel : String) :
    filterBySegment T "All" = T ∧
    (filterBySegment T "All").rows.length = T.rows.length ∧
    (sel ≠ "All" →
      (filterBySegment T sel).rows =
        T.rows.filter (fun r => decide (r.segment = some sel)) ∧
      (filterBySegment T sel).rows.Sublist T.rows) := by
  refine ⟨rfl, rfl, fun h => ⟨?_, ?_⟩⟩
  · simp [filterBySegment, h]
  · simp only [filterBySegment, h, if_neg, if_false]
    exact List.filter_sublist _

/-- Sample rows and table shared by several witnesses below. -/
def rowGold1 : RfmRow :=
  { customerId := "1", recency := 10, frequency := 2, monetary := 100,
    segment := some "Gold" }

def rowSilver : RfmRow :=
  { customerId := "2", recency := 5, frequency := 1, monetary := 50,
    segment := some "Silver" }

def rowGold2 : RfmRow :=
  { customerId := "3", recency := 20, frequency := 5, monetary := 300,
    segment := some "Gold" }

def tblDemo : RfmTable :=
  { hasRecency := true, hasFrequency := true, hasMonetary := true,
    hasSegment := true, rows := [rowGold1, rowSilver, rowGold2] }

/-- Witness for C6 at a concrete table and the concrete selection `Gold`. -/
theorem filterBySegment_spec_witness :
    (filterBySegment tblDemo "Gold").rows = [rowGold1, rowGold2] ∧
    (filterBySegment tblDemo "Gold").rows.Sublist tblDemo.rows := by
  have h := (filterBySegment_spec tblDemo "Gold").2.2 (by decide)
  exact ⟨h.1.trans (by decide), h.2⟩

/-! ### C7: segment revenue presentation sort -/

/-- C7: the per-segment revenue list is sorted in non-increasing revenue
order, and re-applying the descending presentation sort leaves it
unchanged. -/
theorem segmentRevenue_sorted_idem (T : RfmTable) :
    (segmentRevenue T).Pairwise (fun a b => b.2 ≤ a.2) ∧
    (segmentRevenue T).mergeSort revDesc = segmentRevenue T := by
  have hp : (segmentRevenue T).Pairwise fun a b => revDesc a b := by
    unfold segmentRevenue
    exact List.sorted_mergeSort revDesc_trans revDesc_total _
  refine ⟨hp.imp ?_, List.mergeSort_of_sorted hp⟩
  intro a b h
  simpa [revDesc] using h

/-! ### C8: key metrics never crash and degrade per column -/

/-- C8: key metrics are total. On a table with zero rows the means are the
NaN that `Series.mean()` returns (no division-by-zero error) and the
revenue sum is 0; and each derived metric is a real value exactly when its
source column exists, rendering the `N/A` placeholder otherwise. -/
theorem summaryMetrics_safe (T : RfmTable) :
    (summaryMetrics T).totalCustomers = T.rows.length ∧
    (T.rows = [] →
      (summaryMetrics T).avgRecency =
        (if T.hasRecency then MetricVal.nan else MetricVal.unavailable) ∧
      (summaryMetrics T).avgFrequency =
        (if T.hasFrequency then MetricVal.nan else MetricVal.unavailable) ∧
      (summaryMetrics T).totalRevenue =
        (if T.hasMonetary then MetricVal.val 0 else MetricVal.unavailable)) ∧
    ((summaryMetrics T).avgRecency ≠ MetricVal.unavailable ↔ T.hasRecency = true) ∧
    ((summaryMetrics T).avgFrequency ≠ MetricVal.unavailable ↔ T.hasFrequency = true) ∧
    ((summaryMetrics T).totalRevenue ≠ MetricVal.unavailable ↔ T.hasMonetary = true) := by
  refine ⟨rfl, fun h => ?_, ?_, ?_, ?_⟩
  · refine ⟨?_, ?_, ?_⟩ <;> simp [summaryMetrics, h, meanMetric]
  · cases hR : T.hasRecency <;>
      simp [summaryMetrics, hR, meanMetric_ne_unavailable]
  · cases hF : T.hasFrequency <;>
      simp [summaryMetrics, hF, meanMetric_ne_unavailable]
  · cases hM : T.hasMonetary <;> simp [summaryMetrics, hM]

/-- Witness for C8 at the concrete empty table with all columns present. -/
theorem summaryMetrics_safe_witness :
    (summaryMetrics (RfmTable.mk true true true true [])).avgRecency =
        MetricVal.nan ∧
    (summaryMetrics (RfmTable.mk true true true true [])).avgFrequency =
        MetricVal.nan ∧
    (summaryMetrics (RfmTable.mk true true true true [])).totalRevenue =
        MetricVal.val 0 := by
  have h := (summaryMetrics_safe (RfmTable.mk true true true true [])).2.1 rfl
  exact ⟨by simpa using h.1, by simpa using h.2.1, by simpa using h.2.2⟩

/-! ### C9: the aggregator never mutates the loaded table -/

/-- C9: one dashboard pass leaves the loaded table unchanged, re-running
the whole pass on the table left behind reproduces the pass, and
re-running each individual aggregation on the table left behind reproduces
its first result. -/
theorem aggregator_pure (T : RfmTable) (sel : String) :
    (dashboardRun T sel).finalRfm = T ∧
    dashboardRun ((dashboardRun T sel).finalRfm) sel = dashboardRun T sel ∧
    filterBySegment ((dashboardRun T sel).finalRfm) sel = filterBySegment T sel ∧
    summaryMetrics ((dashboardRun T sel).finalRfm) = summaryMetrics T ∧
    segmentCounts ((dashboardRun T sel).finalRfm) = segmentCounts T ∧
    segmentRfmMeans ((dashboardRun T sel).finalRfm) = segmentRfmMeans T ∧
    segmentRevenue ((dashboardRun T sel).finalRfm) = segmentRevenue T ∧
    topNByMonetary ((dashboardRun T sel).finalRfm) 10 = topNByMonetary T 10 ∧
    segmentSummary ((dashboardRun T sel).finalRfm) = segmentSummary T :=
  ⟨rfl, rfl, rfl, rfl, rfl, rfl, rfl, rfl, rfl⟩

/-! ### C10: the filter selection does not reach the full-table aggregates -/

/-- C10: for any two sidebar selections, the segment distribution, the
per-segment RFM means, the per-segment revenue, the top-10 customers and
the segment summary table are identical — they are computed from the full
unfiltered table, so the selection can influence only the key metrics, the
3D scatter, the histograms and the raw-data sample. -/
theorem filter_noninterference (T : RfmTable) (sel1 sel2 : String) :
    (dashboardRun T sel1).segCounts = (dashboardRun T sel2).segCounts ∧
    (dashboardRun T sel1).segRfmMeans = (dashboardRun T sel2).segRfmMeans ∧
    (dashboardRun T sel1).segRevenue = (dashboardRun T sel2).segRevenue ∧
    (dashboardRun T sel1).topCustomers = (dashboardRun T sel2).topCustomers ∧
    (dashboardRun T sel1).segSummaryRows = (dashboardRun T sel2).segSummaryRows :=
  ⟨rfl, rfl, rfl, rfl, rfl⟩

/-! ### C3: top-N customers by monetary value -/

/-- Filtering to the rows of one monetary value commutes with the stable
descending sort: equal-valued rows come out in their original order. -/
theorem mergeSort_monDesc_stable (l : List RfmRow) (v : Rat) :
    (l.mergeSort monDesc).filter (fun r => decide (r.monetary = v)) =
      l.filter (fun r => decide (r.monetary = v)) := by
  set p : RfmRow → Bool := fun r => decide (r.monetary = v) with hp
  have hpair : (l.filter p).Pairwise fun a b => monDesc a b := by
    apply List.pairwise_of_forall_mem_list
    intro a ha b hb
    have ha' : a.monetary = v := by
      have := (List.mem_filter.mp ha).2
      simpa [hp] using this
    have hb' : b.monetary = v := by
      have := (List.mem_filter.mp hb).2
      simpa [hp] using this
    simp [monDesc, ha', hb']
  have hsub : (l.filter p).Sublist (l.mergeSort monDesc) :=
    List.sublist_mergeSort monDesc_trans monDesc_total hpair (List.filter_sublist l)
  have hidem : (l.filter p).filter p = l.filter p := by
    rw [List.filter_filter]
    simp
  have hsub2 : (l.filter p).Sublist ((l.mergeSort monDesc).filter p) := by
    have h := hsub.filter p
    rwa [hidem] at h
  have hlen : ((l.mergeSort monDesc).filter p).length = (l.filter p).length :=
    ((List.mergeSort_perm l monDesc).filter p).length_eq
  exact (hsub2.eq_of_length hlen.symm).symm

/-- C3: `top_n_by_monetary` returns `min n (count T)` rows, in
non-increasing monetary order, and the selection is stable: it is the
prefix of a stable descending sort, one in which the rows holding any
given monetary value appear exactly as in the original table order. -/
theorem topNByMonetary_spec (T : RfmTable) (n : Nat) :
    (topNByMonetary T n).length = min n T.rows.length ∧
    (topNByMonetary T n).Pairwise (fun a b => b.monetary ≤ a.monetary) ∧
    topNByMonetary T n = (T.rows.mergeSort monDesc).take n ∧
    (∀ v : Rat,
      (T.rows.mergeSort monDesc).filter (fun r => decide (r.monetary = v)) =
        T.rows.filter (fun r => decide (r.monetary = v))) := by
  refine ⟨?_, ?_, rfl, fun v => mergeSort_monDesc_stable T.rows v⟩
  · rw [topNByMonetary, List.length_take, List.length_mergeSort]
  · have hp : (T.rows.mergeSort monDesc).Pairwise fun a b => monDesc a b :=
      List.sorted_mergeSort monDesc_trans monDesc_total _
    have hq : (topNByMonetary T n).Pairwise fun a b => monDesc a b :=
      hp.sublist (List.take_sublist n _)
    refine hq.imp ?_
    intro a b h
    simpa [monDesc] using h

/-! ### Counting lemmas for the grouping claims (C4, C5) -/

theorem sum_map_add_nat (l : List String) (f g : String → Nat) :
    (l.map (fun s => f s + g s)).sum = (l.map f).sum + (l.map g).sum := by
  induction l with
  | nil => rfl
  | cons a l ih =>
      simp only [List.map_cons, List.sum_cons, ih]
      omega

theorem sum_map_indicator (l : List String) (s0 : String) :
    (l.map (fun s => if s0 = s then 1 else 0)).sum = l.count s0 := by
  induction l with
  | nil => rfl
  | cons a l ih =>
      simp only [List.map_cons, List.sum_cons, List.count_cons, ih, beq_iff_eq]
      by_cases h : s0 = a
      · simp [h]
        omega
      · simp [h]
        exact fun hh => h hh.symm

/-- Partition of the present-segment rows over any duplicate-free list of
keys covering every present segment value: the bucket counts sum to the
number of rows whose segment is present. -/
theorem sum_bucket_counts (rows : List RfmRow) (keys : List String)
    (hnd : keys.Nodup)
    (hcov : ∀ r ∈ rows, ∀ s, r.segment = some s → s ∈ keys) :
    (keys.map (fun s => rows.countP (fun r => decide (r.segment = some s)))).sum
      = rows.countP (fun r => r.segment.isSome) := by
  induction rows with
  | nil => simp
  | cons r rows ih =>
      have hcov' : ∀ x ∈ rows, ∀ s, x.segment = some s → s ∈ keys :=
        fun x hx => hcov x (List.mem_cons_of_mem _ hx)
      cases hseg : r.segment with
      | none =>
          have hmap :
              keys.map (fun s =>
                  (r :: rows).countP (fun x => decide (x.segment = some s)))
                = keys.map (fun s =>
                    rows.countP (fun x => decide (x.segment = some s))) := by
            apply List.map_congr_left
            intro s _
            simp [List.countP_cons, hseg]
          rw [hmap, ih hcov']
          simp [List.countP_cons, hseg]
      | some s0 =>
          have hs0 : s0 ∈ keys := hcov r (List.mem_cons_self _ _) s0 hseg
          have hmap :
              keys.map (fun s =>
                  (r :: rows).countP (fun x => decide (x.segment = some s)))
                = keys.map (fun s =>
                    rows.countP (fun x => decide (x.segment = some s)) +
                      (if s0 = s then 1 else 0)) := by
            apply List.map_congr_left
            intro s _
            by_cases h : s0 = s <;> simp [List.countP_cons, hseg, h]
          rw [hmap, sum_map_add_nat, ih hcov', sum_map_indicator,
            List.count_eq_one_of_mem hnd hs0]
          simp [List.countP_cons, hseg]

theorem mem_presentSegments (T : RfmTable) (s : String) :
    s ∈ presentSegments T ↔ ∃ r ∈ T.rows, r.segment = some s := by
  simp [presentSegments, List.mem_dedup, List.mem_filterMap]

/-! ### C4: segment distribution counts -/

/-- A loaded table with a single row whose segment cell is missing (an
empty `Customer_Segment` cell, NaN to pandas). -/
def rowNoSeg : RfmRow :=
  { customerId := "9", recency := 1, frequency := 1, monetary := 1,
    segment := none }

def tblMissingSeg : RfmTable :=
  { hasRecency := true, hasFrequency := true, hasMonetary := true,
    hasSegment := true, rows := [rowNoSeg] }

/-- Counterexample to C4 as stated: on a table with one missing-segment
row, `value_counts` (default `dropna=True`) drops the row, so the counts
sum to 0 while the table has 1 row — the missing segment does not form its
own group. -/
theorem segmentCounts_drop_missing_counterexample :
    ((segmentCounts tblMissingSeg).map Prod.snd).sum = 0 ∧
    tblMissingSeg.rows.length = 1 := by
  constructor
  · have h : presentSegments tblMissingSeg = [] := by decide
    simp [segmentCounts, h]
  · rfl

/-- C4 (amended): the counts of `segment_counts` sum to the number of rows
whose segment value is present — rows with a missing segment are silently
dropped by `value_counts`, not grouped — with exactly one entry per
distinct present segment value. -/
theorem segmentCounts_spec (T : RfmTable) :
    ((segmentCounts T).map Prod.snd).sum
        = (T.rows.filter (fun r => r.segment.isSome)).length ∧
    ((segmentCounts T).map Prod.fst).Nodup ∧
    (∀ s, s ∈ (segmentCounts T).map Prod.fst ↔ ∃ r ∈ T.rows, r.segment = some s) := by
  have hperm : (segmentCounts T).Perm
      ((presentSegments T).map (fun s => (s, segmentCount T s))) :=
    List.mergeSort_perm _ _
  have hfst : ((segmentCounts T).map Prod.fst).Perm (presentSegments T) := by
    have h := hperm.map Prod.fst
    rw [List.map_map] at h
    have hid : (Prod.fst ∘ fun s => (s, segmentCount T s)) = fun s : String => s :=
      rfl
    rwa [hid, List.map_id'] at h
  refine ⟨?_, ?_, ?_⟩
  · have hsnd : ((segmentCounts T).map Prod.snd).Perm
        ((presentSegments T).map (fun s => segmentCount T s)) := by
      have h := hperm.map Prod.snd
      rw [List.map_map] at h
      have hid : (Prod.snd ∘ fun s => (s, segmentCount T s)) =
          fun s : String => segmentCount T s := rfl
      rwa [hid] at h
    rw [hsnd.sum_eq]
    rw [← List.countP_eq_length_filter]
    exact sum_bucket_counts T.rows (presentSegments T)
      (List.nodup_dedup _)
      (fun r hr s hs => (mem_presentSegments T s).mpr ⟨r, hr, hs⟩)
  · exact hfst.nodup_iff.mpr (List.nodup_dedup _)
  · intro s
    rw [hfst.mem_iff]
    exact mem_presentSegments T s

/-! ### C5: the segment-filtered views and the partition property -/

/-- Counterexample to C5 as stated: on the table with one missing-segment
row there is no present segment value at all, so the sum of the filtered
counts over all distinct present segments is 0 while the table has 1 row. -/
theorem segment_partition_counterexample :
    ((presentSegments tblMissingSeg).map
        (fun s => (filterBySegment tblMissingSeg s).rows.length)).sum = 0 ∧
    tblMissingSeg.rows.length = 1 := by
  constructor
  · have h : presentSegments tblMissingSeg = [] := by decide
    rw [h]
    rfl
  · rfl

/-- C5 (amended): provided no segment is literally labelled `All` (for
which the filter would return the whole table instead of a subsequence),
the segment-filtered views partition the rows that carry a present segment
value: the filtered counts over all distinct present segments sum to the
number of rows with a present segment. Rows with a missing segment match no
selection (NaN compares unequal to everything) and are in no view. -/
theorem segment_filter_partition (T : RfmTable)
    (hAll : "All" ∉ presentSegments T) :
    ((presentSegments T).map
        (fun s => (filterBySegment T s).rows.length)).sum
      = (T.rows.filter (fun r => r.segment.isSome)).length := by
  have hmap : (presentSegments T).map
        (fun s => (filterBySegment T s).rows.length)
      = (presentSegments T).map
          (fun s => T.rows.countP (fun r => decide (r.segment = some s))) := by
    apply List.map_congr_left
    intro s hs
    have hne : s ≠ "All" := fun h => hAll (h ▸ hs)
    simp [filterBySegment, hne, List.countP_eq_length_filter]
  rw [hmap, ← List.countP_eq_length_filter]
  exact sum_bucket_counts T.rows (presentSegments T)
    (List.nodup_dedup _)
    (fun r hr s hs => (mem_presentSegments T s).mpr ⟨r, hr, hs⟩)

/-- Witness for C5 at the concrete demo table with segments Gold, Silver. -/
theorem segment_filter_partition_witness :
    "All" ∉ presentSegments tblDemo ∧
    ((presentSegments tblDemo).map
        (fun s => (filterBySegment tblDemo s).rows.length)).sum
      = (tblDemo.rows.filter (fun r => r.segment.isSome)).length :=
  ⟨by decide, segment_filter_partition tblDemo (by decide)⟩

end Dashboard
